import Mathlib

/-!
Shallow embedding of the health-tracking app's core data-shaping routines
(`app.py`): the CSV column mapper (`process_zepp_csv`), the per-row metric
normalizer/upserter (`save_zepp_data`) over the `zepp_data` table created by
`init_db`, and the dashboard aggregations in `main` (latest positive body
weight and 30-day average sleep).

Python/pandas scalar values are modelled by `Value` (strings, rationals for
int/float, and a `vNone` for Python `None`); a pandas row (`Series`) is an
association list from column name to value; the SQLite `zepp_data` table is a
list of records plus the AUTOINCREMENT counter.  SQL strings compare
lexicographically, as SQLite compares TEXT columns.
-/

namespace HealthApp

/-- A Python/pandas cell value: a string, a number (int or float, both as a
rational), or `None`.  Float NaN is not modelled; no claim exercises it. -/
inductive Value where
  | vStr (s : String)
  | vNum (q : ℚ)
  | vNone
deriving DecidableEq

/-- Numeric value of a decimal digit character. -/
def digitVal (c : Char) : ℕ := c.toNat - '0'.toNat

/-- Natural number denoted by a list of decimal digit characters. -/
def digitsToNat (cs : List Char) : ℕ :=
  cs.foldl (fun n c => n * 10 + digitVal c) 0

/-- Parse a nonempty all-digit character list as a natural number. -/
def parseNatChars (cs : List Char) : Option ℕ :=
  if !cs.isEmpty && cs.all Char.isDigit then some (digitsToNat cs) else none

/-- Python `int(str)`: optional sign followed by decimal digits; anything else
(including a decimal point) raises, modelled as `none`. -/
def pyIntOfStr (s : String) : Option ℤ :=
  match s.data with
  | '-' :: cs => (parseNatChars cs).map (fun n => -(n : ℤ))
  | '+' :: cs => (parseNatChars cs).map (fun n => (n : ℤ))
  | cs => (parseNatChars cs).map (fun n => (n : ℤ))

/-- Split a character list at the first dot, if any. -/
def splitAtDot : List Char → List Char × Option (List Char)
  | [] => ([], none)
  | '.' :: rest => ([], some rest)
  | c :: rest =>
    let p := splitAtDot rest
    (c :: p.1, p.2)

/-- Unsigned decimal literal (digits, optionally with one dot) as a rational. -/
def parseUnsignedDec (cs : List Char) : Option ℚ :=
  match splitAtDot cs with
  | (intPart, none) => (parseNatChars intPart).map (fun n => (n : ℚ))
  | (intPart, some fracPart) =>
    if (intPart.all Char.isDigit && fracPart.all Char.isDigit)
        && !(intPart.isEmpty && fracPart.isEmpty) then
      some ((digitsToNat intPart : ℚ)
        + (digitsToNat fracPart : ℚ) / ((10 : ℚ) ^ fracPart.length))
    else none

/-- Python `float(str)` restricted to plain signed decimal literals (no
exponents, infinities or NaN, which no claim exercises); failure is `none`. -/
def pyFloatOfStr (s : String) : Option ℚ :=
  match s.data with
  | '-' :: cs => (parseUnsignedDec cs).map (fun q => -q)
  | '+' :: cs => parseUnsignedDec cs
  | cs => parseUnsignedDec cs

/-- Truncation toward zero, as Python `int()` applied to a float. -/
def pyTrunc (q : ℚ) : ℤ := if q < 0 then -((-q).floor) else q.floor

/-- Python `int(v)`: numbers truncate toward zero, strings must parse as an
integer literal, `None` raises (modelled as `none`). -/
def pyInt : Value → Option ℤ
  | .vNum q => some (pyTrunc q)
  | .vStr s => pyIntOfStr s
  | .vNone => none

/-- Python `float(v)`: numbers pass through, strings must parse as a decimal
literal, `None` raises (modelled as `none`). -/
def pyFloat : Value → Option ℚ
  | .vNum q => some q
  | .vStr s => pyFloatOfStr s
  | .vNone => none

/-- Python truthiness of a cell value: zero, the empty string and `None` are
falsy, everything else is truthy. -/
def pyTruthy : Value → Bool
  | .vNum q => decide (q ≠ 0)
  | .vStr s => decide (s ≠ "")
  | .vNone => false

/-- The `v or 0` idiom of `save_zepp_data`: a falsy value becomes the int 0. -/
def orZero (v : Value) : Value := if pyTruthy v then v else .vNum 0

/-- The coercion `int(v or 0)` of `save_zepp_data`; `none` models the
exception raised on an unparseable value. -/
def coerceInt (v : Value) : Option ℤ := pyInt (orZero v)

/-- The coercion `float(v or 0)` of `save_zepp_data`; `none` models the
exception raised on an unparseable value. -/
def coerceFloat (v : Value) : Option ℚ := pyFloat (orZero v)

/-- Python `str(v)` as used on the date cell.  Date cells in every claim are
strings; the rendering of numbers is irrelevant to the theorems below. -/
def pyStr : Value → String
  | .vStr s => s
  | .vNum q => toString q
  | .vNone => "None"

/-- Valid `HH:MM:SS` time-of-day characters, optionally with a fractional
seconds part. -/
def validTimeChars : List Char → Bool
  | h1 :: h2 :: ':' :: m1 :: m2 :: ':' :: s1 :: s2 :: rest =>
    h1.isDigit && h2.isDigit && m1.isDigit && m2.isDigit
      && s1.isDigit && s2.isDigit
      && decide (digitVal h1 * 10 + digitVal h2 < 24)
      && decide (digitVal m1 * 10 + digitVal m2 < 60)
      && decide (digitVal s1 * 10 + digitVal s2 < 60)
      && (match rest with
          | [] => true
          | '.' :: fs => !fs.isEmpty && fs.all Char.isDigit
          | _ => false)
  | _ => false

/-- The composition `pd.to_datetime(s).strftime("%Y-%m-%d")` of
`save_zepp_data`, modelled on ISO-8601 date-time strings
`YYYY-MM-DD[ T]HH:MM:SS[.fff]` (the format Zepp exports): on success it
returns the `YYYY-MM-DD` calendar part, on parse failure `none`. -/
def pdToDatetime (s : String) : Option String :=
  match s.data with
  | y1 :: y2 :: y3 :: y4 :: '-' :: o1 :: o2 :: '-' :: d1 :: d2 :: rest =>
    if y1.isDigit && y2.isDigit && y3.isDigit && y4.isDigit
        && o1.isDigit && o2.isDigit && d1.isDigit && d2.isDigit
        && decide (1 ≤ digitVal o1 * 10 + digitVal o2)
        && decide (digitVal o1 * 10 + digitVal o2 ≤ 12)
        && decide (1 ≤ digitVal d1 * 10 + digitVal d2)
        && decide (digitVal d1 * 10 + digitVal d2 ≤ 31) then
      match rest with
      | [] => some ⟨[y1, y2, y3, y4, '-', o1, o2, '-', d1, d2]⟩
      | sep :: t =>
        if (sep == ' ' || sep == 'T') && validTimeChars t then
          some ⟨[y1, y2, y3, y4, '-', o1, o2, '-', d1, d2]⟩
        else none
    else none
  | _ => none

/-- Date normalization of `save_zepp_data` (lines 186-194): values longer than
10 characters are parsed as a date-time and reduced to `YYYY-MM-DD`, falling
back to the first 10 characters verbatim; short values pass unchanged. -/
def normalizeDate (d : String) : String :=
  if d.length > 10 then
    match pdToDatetime d with
    | some iso => iso
    | none => d.take 10
  else d

/-- The inline sleep unit inference of `save_zepp_data` (lines 199-200),
named `sleep_unit_heuristic` by the spec. -/
def sleep_unit_heuristic (v : ℚ) : ℚ := if v > 24 then v / 60 else v

/-- One row of the `zepp_data` table of `init_db`: AUTOINCREMENT id, UNIQUE
date, and the six metric columns. -/
structure Record where
  id : ℕ
  date : String
  steps : ℤ
  sleep_hours : ℚ
  deep_sleep_min : ℤ
  min_heart_rate : ℤ
  max_heart_rate : ℤ
  body_weight : ℚ
deriving DecidableEq

/-- The `zepp_data` table: its rows in insertion order together with the
AUTOINCREMENT counter (the next rowid, never reused). -/
structure DB where
  rows : List Record
  nextId : ℕ
deriving DecidableEq

/-- A freshly created `zepp_data` table; SQLite AUTOINCREMENT starts at 1. -/
def emptyDB : DB := ⟨[], 1⟩

/-- The `INSERT OR REPLACE` of `save_zepp_data` on the date-UNIQUE table:
any row with a conflicting date is deleted and a new row is inserted with a
fresh AUTOINCREMENT id (the id column is not in the INSERT's column list). -/
def upsert (db : DB) (d : String) (steps : ℤ) (sleep : ℚ)
    (deep mnh mxh : ℤ) (w : ℚ) : DB :=
  { rows := db.rows.filter (fun r => decide (r.date ≠ d)) ++
      [{ id := db.nextId, date := d, steps := steps, sleep_hours := sleep,
         deep_sleep_min := deep, min_heart_rate := mnh, max_heart_rate := mxh,
         body_weight := w }],
    nextId := db.nextId + 1 }

/-- The column-mapping dictionary of `process_zepp_csv`: internal DB field
name to expected CSV header. -/
structure Mapping where
  date : String
  steps : String
  sleep_hours : String
  deep_sleep_min : String
  min_heart_rate : String
  max_heart_rate : String
  body_weight : String
deriving DecidableEq

/-- The values of the mapping dictionary, in Python dict insertion order. -/
def mappingValues (m : Mapping) : List String :=
  [m.date, m.steps, m.sleep_hours, m.deep_sleep_min,
   m.min_heart_rate, m.max_heart_rate, m.body_weight]

/-- The static mapping configured in `process_zepp_csv` (lines 141-149). -/
def defaultMapping : Mapping :=
  ⟨"date", "steps", "totalSleep", "deepSleep",
   "minHeartRate", "maxHeartRate", "weight"⟩

/-- Bool test of `p` being a contiguous prefix of `t`. -/
def startsWithChars : List Char → List Char → Bool
  | _, [] => true
  | [], _ :: _ => false
  | c :: cs, p :: ps => c == p && startsWithChars cs ps

/-- Bool test of `p` occurring as a contiguous substring of `t` (Python's
`in` on strings, over the character lists). -/
def hasSub : List Char → List Char → Bool
  | [], p => p.isEmpty
  | t@(_ :: rest), p => startsWithChars t p || hasSub rest p

/-- Python `pat in c.lower()` for header strings, lowering character by
character (Python's `.lower()` agrees with this on ASCII headers). -/
def lowerContains (c : String) (pat : String) : Bool :=
  hasSub (c.data.map Char.toLower) pat.data

/-- The date-column fallback predicate of `process_zepp_csv` line 154:
`'date' in c.lower() or 'time' in c.lower()`. -/
def isDateLike (c : String) : Bool :=
  lowerContains c "date" || lowerContains c "time"

/-- The fallback of `process_zepp_csv` lines 153-156: when no header is
literally `date`, the first date-like header (in file order) becomes the date
column; every other mapping entry is left untouched. -/
def resolveDateColumn (headers : List String) (m : Mapping) : Mapping :=
  if "date" ∈ headers then m
  else
    match headers.filter isDateLike with
    | [] => m
    | h :: _ => { m with date := h }

/-- The `available_columns` filter of `process_zepp_csv` line 159: mapping
values that actually occur among the file's headers. -/
def availableColumns (headers : List String) (m : Mapping) : List String :=
  (mappingValues m).filter (fun col => decide (col ∈ headers))

/-- The mapper `process_zepp_csv`, abstracted over the parsed file's header
list: resolves the date column, and returns `none` (the
no-recognized-columns condition, lines 161-164) when no mapping value is an
actual column, otherwise the table (represented by its headers) with the
resolved mapping. -/
def process_zepp_csv (headers : List String) :
    Option (List String × Mapping) :=
  let m := resolveDateColumn headers defaultMapping
  if availableColumns headers m = [] then none
  else some (headers, m)

/-- A pandas row (`Series`) from `df.iterrows()`: column name to value. -/
def Row := List (String × Value)

/-- Lookup of a column in a row (`row[k]` / membership for `k in row`). -/
def rowLookup (row : Row) (k : String) : Option Value :=
  (row.find? (fun p => p.1 == k)).map (fun p => p.2)

/-- Pandas `row.get(k, default)`. -/
def rowGet (row : Row) (k : String) (d : Value) : Value :=
  (rowLookup row k).getD d

/-- The body of `save_zepp_data`'s loop for one row after the date column was
found: normalize the date, coerce the six metrics (`none` models a raised
coercion exception), and upsert.  The stored sleep is
`sleep_unit_heuristic` of the raw coerced value (lines 199-200). -/
def rowStep (m : Mapping) (row : Row) (v : Value) (db : DB) : Option DB := do
  let dv := normalizeDate (pyStr v)
  let steps ← coerceInt (rowGet row m.steps (.vNum 0))
  let raw_sleep ← coerceFloat (rowGet row m.sleep_hours (.vNum 0))
  let sleep_h := sleep_unit_heuristic raw_sleep
  let deep ← coerceInt (rowGet row m.deep_sleep_min (.vNum 0))
  let mnh ← coerceInt (rowGet row m.min_heart_rate (.vNum 0))
  let mxh ← coerceInt (rowGet row m.max_heart_rate (.vNum 0))
  let w ← coerceFloat (rowGet row m.body_weight (.vNum 0))
  pure (upsert db dv steps sleep_h deep mnh mxh w)

/-- The `for` loop of `save_zepp_data`: rows without the date column are
skipped (`continue`); a coercion failure anywhere aborts the loop (`none`),
since the single `try` wraps the whole loop.  Returns the table state and the
processed-row count on success. -/
def saveLoop (m : Mapping) : List Row → DB → ℕ → Option (DB × ℕ)
  | [], db, n => some (db, n)
  | row :: rest, db, n =>
    match rowLookup row m.date with
    | none => saveLoop m rest db n
    | some v =>
      match rowStep m row v db with
      | none => none
      | some db2 => saveLoop m rest db2 (n + 1)

/-- The upsert routine `save_zepp_data`: on success `conn.commit()` publishes
the new table state with the row count; on an exception the connection is
closed without commit, so the table keeps its prior state and an error is
reported. -/
def save_zepp_data (db : DB) (rows : List Row) (m : Mapping) :
    DB × Except String ℕ :=
  match saveLoop m rows db 0 with
  | some (db2, n) => (db2, .ok n)
  | none => (db, .error "row coercion failed")

/-- Whether a `save_zepp_data` outcome reported an error. -/
def isDbError (r : DB × Except String ℕ) : Bool :=
  match r.2 with
  | .error _ => true
  | .ok _ => false

/-- Strict lexicographic order on character lists, modelling SQLite's byte
order on TEXT values (continuation lines compare by code point). -/
def strLtChars : List Char → List Char → Bool
  | [], [] => false
  | [], _ :: _ => true
  | _ :: _, [] => false
  | a :: as, b :: bs =>
    decide (a.toNat < b.toNat) || (a == b && strLtChars as bs)

/-- SQLite's `<` on TEXT columns. -/
def sqlLt (a b : String) : Bool := strLtChars a.data b.data

/-- SQLite's `<=` / `>=` comparison on TEXT columns (the total order's
reflexive closure). -/
def sqlLe (a b : String) : Bool := !(sqlLt b a)

/-- Insertion into a date-ascending list, for the SQL `ORDER BY date ASC`. -/
def insertByDate (r : Record) : List Record → List Record
  | [] => [r]
  | x :: xs =>
    if sqlLe r.date x.date then r :: x :: xs else x :: insertByDate r xs

/-- Insertion sort by date, modelling the SQL `ORDER BY date ASC`. -/
def sortByDate (l : List Record) : List Record := l.foldr insertByDate []

/-- The dashboard query of `main` line 304: `zepp_data` rows with
`date >= date('now','-30 days')` (TEXT comparison against the cutoff string),
ordered by date ascending. -/
def query30 (db : DB) (cutoff : String) : List Record :=
  sortByDate (db.rows.filter (fun r => sqlLe cutoff r.date))

/-- The latest-known-weight aggregation of `main` lines 309-316: `"N/A"`
(here `none`) for an empty frame, else the last row (ascending date order)
with `body_weight > 0`, and `none` again when no such row exists. -/
def curr_weight (rows : List Record) : Option ℚ :=
  if rows = [] then none
  else
    ((rows.filter (fun r => decide (0 < r.body_weight))).getLast?).map
      (fun r => r.body_weight)

/-- The 30-day average-sleep KPI of `main` lines 310-318: 0 for an empty
frame, else the arithmetic mean of `sleep_hours`. -/
def kpi_avg_sleep (db : DB) (cutoff : String) : ℚ :=
  let dfz := query30 db cutoff
  if dfz = [] then 0
  else ((dfz.map (fun r => r.sleep_hours)).sum) / (dfz.length : ℚ)

/-- The current-weight KPI over the 30-day dashboard query. -/
def kpi_curr_weight (db : DB) (cutoff : String) : Option ℚ :=
  curr_weight (query30 db cutoff)

/-- All ids in the table are below the AUTOINCREMENT counter — the invariant
SQLite maintains for an AUTOINCREMENT primary key. -/
def wfDB (db : DB) : Prop := ∀ r ∈ db.rows, r.id < db.nextId

/-- Sample batch for the end-to-end upsert scenario: the same calendar day in
two raw formats, with different metric payloads. -/
def zeppRow1 : Row :=
  [("date", .vStr "2024-01-01"), ("steps", .vNum 100), ("weight", .vNum 70)]

/-- Second sample row: the same day carrying a time-of-day component. -/
def zeppRow2 : Row :=
  [("date", .vStr "2024-01-01 08:00:00"), ("steps", .vNum 200)]

/-- The rational 62.3 in normalized form, so that comparisons against it
reduce in the kernel. -/
def w623 : ℚ := ⟨623, 10, by norm_num, by norm_num⟩

/-- Ascending-date sample table for the latest-weight aggregation, with
body weights 0, 0, 62.3, 0. -/
def c7rows : List Record :=
  [⟨1, "2024-01-01", 0, 0, 0, 0, 0, 0⟩,
   ⟨2, "2024-01-02", 0, 0, 0, 0, 0, 0⟩,
   ⟨3, "2024-01-03", 0, 0, 0, 0, 0, w623⟩,
   ⟨4, "2024-01-04", 0, 0, 0, 0, 0, 0⟩]

theorem mem_of_getLast?_eq {α : Type} {l : List α} {x : α}
    (h : l.getLast? = some x) : x ∈ l := by
  induction l with
  | nil => simp at h
  | cons a as ih =>
    cases as with
    | nil => simp_all
    | cons b bs =>
      rw [List.getLast?_cons_cons] at h
      exact List.mem_cons_of_mem a (ih h)

theorem filter_upsert_same_date (db : DB) (d : String) (s : ℤ) (sl : ℚ)
    (ds mnh mxh : ℤ) (w : ℚ) :
    (upsert db d s sl ds mnh mxh w).rows.filter (fun r => decide (r.date = d)) =
      [⟨db.nextId, d, s, sl, ds, mnh, mxh, w⟩] := by
  simp only [upsert, List.filter_append, List.filter_filter]
  have h1 : db.rows.filter
      (fun a => decide (a.date = d) && decide (a.date ≠ d)) = [] := by
    rw [List.filter_eq_nil_iff]
    intro a _
    by_cases hd : a.date = d <;> simp [hd]
  rw [h1]
  simp

/-- C3: the sleep-unit heuristic divides by 60 exactly when the raw value
exceeds 24, leaves smaller values untouched, and maps 30 to 0.5, 7 to 7 and
the boundary 24 to 24. -/
theorem sleep_unit_heuristic_spec :
    (∀ v : ℚ, 24 < v → sleep_unit_heuristic v = v / 60) ∧
    (∀ v : ℚ, v ≤ 24 → sleep_unit_heuristic v = v) ∧
    sleep_unit_heuristic 30 = 1 / 2 ∧
    sleep_unit_heuristic 7 = 7 ∧
    sleep_unit_heuristic 24 = 24 := by
  refine ⟨fun v h => ?_, fun v h => ?_, by norm_num [sleep_unit_heuristic],
    by norm_num [sleep_unit_heuristic], by norm_num [sleep_unit_heuristic]⟩
  · simp [sleep_unit_heuristic, h]
  · simp [sleep_unit_heuristic, not_lt.mpr h]

theorem sleep_unit_heuristic_spec_witness :
    sleep_unit_heuristic 30 = 30 / 60 ∧ sleep_unit_heuristic 7 = 7 :=
  ⟨sleep_unit_heuristic_spec.1 30 (by norm_num),
   sleep_unit_heuristic_spec.2.1 7 (by norm_num)⟩

/-- C4: a textual date longer than 10 characters is reduced to the
`YYYY-MM-DD` part of its full date-time parse, and to its first 10 characters
verbatim when the parse fails; in particular `"2024-03-05 14:30:00"` becomes
`"2024-03-05"` and an unparseable 12-character string becomes its first 10
characters. -/
theorem normalizeDate_long_values :
    (∀ d : String, 10 < d.length → pdToDatetime d = none →
      normalizeDate d = d.take 10) ∧
    (∀ d iso : String, 10 < d.length → pdToDatetime d = some iso →
      normalizeDate d = iso) ∧
    normalizeDate "2024-03-05 14:30:00" = "2024-03-05" ∧
    normalizeDate "abcdefghijkl" = "abcdefghij" := by
  refine ⟨fun d h hp => ?_, fun d iso h hp => ?_, by decide, by decide⟩
  · simp [normalizeDate, h, hp]
  · simp [normalizeDate, h, hp]

theorem normalizeDate_long_values_witness :
    normalizeDate "abcdefghijkl" = String.take "abcdefghijkl" 10 ∧
    normalizeDate "2024-03-05 14:30:00" = "2024-03-05" :=
  ⟨normalizeDate_long_values.1 "abcdefghijkl" (by decide) (by decide),
   normalizeDate_long_values.2.1 "2024-03-05 14:30:00" "2024-03-05"
     (by decide) (by decide)⟩

/-- C9: a textual date of at most 10 characters is stored verbatim, with no
parsing or validation of any kind — even a non-date string. -/
theorem normalizeDate_short_verbatim :
    (∀ d : String, d.length ≤ 10 → normalizeDate d = d) ∧
    normalizeDate "not-a-date" = "not-a-date" := by
  refine ⟨fun d h => ?_, by decide⟩
  simp [normalizeDate, not_lt.mpr h]

theorem normalizeDate_short_verbatim_witness :
    normalizeDate "xyz" = "xyz" :=
  normalizeDate_short_verbatim.1 "xyz" (by decide)

/-- C2 counterexample: in a three-row batch whose middle row has the
unparseable steps value `"abc"`, the import aborts with an error and the
table is left in its prior (empty) state — the first row is not committed and
the third row is never processed, contrary to the claim. -/
theorem save_aborts_on_unparseable_numeric :
    save_zepp_data emptyDB
        [[("date", .vStr "2024-01-01")],
         [("date", .vStr "2024-01-02"), ("steps", .vStr "abc")],
         [("date", .vStr "2024-01-03")]] defaultMapping
      = (emptyDB, .error "row coercion failed") := by
  rfl

/-- C2 amended: a numeric-coercion failure in any row aborts the whole batch
(the single `try` wraps the loop and `commit` runs only after it), leaving
the table exactly as it was — no row of the batch is committed; only missing
or empty/falsy numeric fields resolve to zero, and for those processing does
continue. -/
theorem save_error_leaves_table_unchanged :
    (∀ (db : DB) (rows : List Row) (m : Mapping),
        isDbError (save_zepp_data db rows m) = true →
        (save_zepp_data db rows m).1 = db) ∧
    coerceInt (.vStr "") = some 0 ∧
    coerceInt .vNone = some 0 ∧
    coerceFloat (.vStr "") = some 0 ∧
    (save_zepp_data emptyDB
        [[("date", .vStr "2024-01-05"), ("steps", .vStr ""), ("weight", .vNone)]]
        defaultMapping).1.rows = [⟨1, "2024-01-05", 0, 0, 0, 0, 0, 0⟩] := by
  refine ⟨fun db rows m h => ?_, by decide, by decide, by decide, by decide⟩
  cases hl : saveLoop m rows db 0 with
  | none => simp [save_zepp_data, hl]
  | some p =>
    obtain ⟨db2, n⟩ := p
    simp [save_zepp_data, isDbError, hl] at h

/-- C1: upserting two rows that normalize to the same calendar date leaves
exactly one `zepp_data` record for that date, holding the later import's
field values in full (replace, not merge); this holds for the upsert
operation in general, for a single batch mixing the raw formats
`"2024-01-01"` and `"2024-01-01 08:00:00"`, and for the same two rows split
across two separate imports. -/
theorem upsert_same_date_single_record (db : DB) (d : String)
    (s1 : ℤ) (sl1 : ℚ) (ds1 mh1 xh1 : ℤ) (w1 : ℚ)
    (s2 : ℤ) (sl2 : ℚ) (ds2 mh2 xh2 : ℤ) (w2 : ℚ) :
    ((upsert (upsert db d s1 sl1 ds1 mh1 xh1 w1) d
          s2 sl2 ds2 mh2 xh2 w2).rows.filter (fun r => decide (r.date = d))
      = [⟨db.nextId + 1, d, s2, sl2, ds2, mh2, xh2, w2⟩]) ∧
    (save_zepp_data emptyDB [zeppRow1, zeppRow2] defaultMapping).1.rows
      = [⟨2, "2024-01-01", 200, 0, 0, 0, 0, 0⟩] ∧
    (save_zepp_data (save_zepp_data emptyDB [zeppRow1] defaultMapping).1
        [zeppRow2] defaultMapping).1.rows
      = [⟨2, "2024-01-01", 200, 0, 0, 0, 0, 0⟩] := by
  refine ⟨?_, by rfl, by rfl⟩
  exact filter_upsert_same_date (upsert db d s1 sl1 ds1 mh1 xh1 w1) d
    s2 sl2 ds2 mh2 xh2 w2

/-- C5: when no header is literally `date`, the mapper adopts the first
header (in file order) containing the substring `date` or `time`
case-insensitively as the date column; every non-date mapping entry is never
rescanned, and an absent non-date header simply stays out of the recognized
columns.  A file with header `Time` but no `date` resolves its date key to
`Time`. -/
theorem date_column_fallback :
    ((resolveDateColumn ["Time", "steps"] defaultMapping).date = "Time") ∧
    (∀ (headers : List String) (h : String) (rest : List String) (m : Mapping),
        "date" ∉ headers → headers.filter isDateLike = h :: rest →
        resolveDateColumn headers m = { m with date := h }) ∧
    (∀ (headers : List String) (m : Mapping),
        (resolveDateColumn headers m).steps = m.steps ∧
        (resolveDateColumn headers m).sleep_hours = m.sleep_hours ∧
        (resolveDateColumn headers m).deep_sleep_min = m.deep_sleep_min ∧
        (resolveDateColumn headers m).min_heart_rate = m.min_heart_rate ∧
        (resolveDateColumn headers m).max_heart_rate = m.max_heart_rate ∧
        (resolveDateColumn headers m).body_weight = m.body_weight) ∧
    (∀ (headers : List String) (m : Mapping) (col : String),
        col ∉ headers →
        col ∉ availableColumns headers (resolveDateColumn headers m)) := by
  refine ⟨by decide, fun headers h rest m hmem hf => ?_, fun headers m => ?_,
    fun headers m col hmem hin => ?_⟩
  · simp [resolveDateColumn, hmem, hf]
  · by_cases hd : "date" ∈ headers
    · simp [resolveDateColumn, hd]
    · cases hf : headers.filter isDateLike with
      | nil => simp [resolveDateColumn, hd, hf]
      | cons h t => simp [resolveDateColumn, hd, hf]
  · rcases List.mem_filter.mp hin with ⟨-, h2⟩
    exact hmem (of_decide_eq_true h2)

theorem date_column_fallback_witness :
    resolveDateColumn ["Time", "steps"] defaultMapping
        = { defaultMapping with date := "Time" } ∧
    "weight" ∉ availableColumns ["Time", "steps"]
        (resolveDateColumn ["Time", "steps"] defaultMapping) :=
  ⟨date_column_fallback.2.1 ["Time", "steps"] "Time" [] defaultMapping
      (by decide) (by decide),
   date_column_fallback.2.2.2 ["Time", "steps"] defaultMapping "weight"
      (by decide)⟩

/-- C6: when no mapping value resolves to an actual column the mapper
returns nothing at all (the no-recognized-columns condition); otherwise it
returns the parsed table together with the resolved mapping, the recognized
columns being exactly `availableColumns`. -/
theorem process_csv_no_recognized_columns :
    (∀ headers : List String,
        availableColumns headers (resolveDateColumn headers defaultMapping)
            = [] →
        process_zepp_csv headers = none) ∧
    (∀ headers : List String,
        availableColumns headers (resolveDateColumn headers defaultMapping)
            ≠ [] →
        process_zepp_csv headers
          = some (headers, resolveDateColumn headers defaultMapping)) ∧
    process_zepp_csv ["foo", "bar"] = none ∧
    process_zepp_csv ["Time", "steps"]
      = some (["Time", "steps"], { defaultMapping with date := "Time" }) := by
  refine ⟨fun headers h => ?_, fun headers h => ?_, by decide, by decide⟩
  · simp [process_zepp_csv, h]
  · simp [process_zepp_csv, h]

theorem process_csv_no_recognized_columns_witness :
    process_zepp_csv ["foo", "bar"] = none ∧
    process_zepp_csv ["Time", "steps"]
      = some (["Time", "steps"],
          resolveDateColumn ["Time", "steps"] defaultMapping) :=
  ⟨process_csv_no_recognized_columns.1 ["foo", "bar"] (by decide),
   process_csv_no_recognized_columns.2.1 ["Time", "steps"] (by decide)⟩

theorem save_error_leaves_table_unchanged_witness :
    isDbError (save_zepp_data emptyDB
        [[("date", .vStr "x"), ("steps", .vStr "abc")]] defaultMapping) = true ∧
    (save_zepp_data emptyDB
        [[("date", .vStr "x"), ("steps", .vStr "abc")]] defaultMapping).1
      = emptyDB :=
  ⟨by decide,
   save_error_leaves_table_unchanged.1 emptyDB
     [[("date", .vStr "x"), ("steps", .vStr "abc")]] defaultMapping (by decide)⟩

theorem strLtChars_irrefl (cs : List Char) : strLtChars cs cs = false := by
  induction cs with
  | nil => rfl
  | cons c cs ih => simp [strLtChars, ih]

theorem strLtChars_asymm (a b : List Char) (h : strLtChars a b = true) :
    strLtChars b a = false := by
  induction a generalizing b with
  | nil =>
    cases b with
    | nil => simp [strLtChars] at h
    | cons d ds => rfl
  | cons c cs ih =>
    cases b with
    | nil => simp [strLtChars] at h
    | cons d ds =>
      simp only [strLtChars, Bool.or_eq_true, Bool.and_eq_true,
        decide_eq_true_eq, beq_iff_eq] at h
      rcases h with h | ⟨he, hr⟩
      · have h1 : ¬ d.toNat < c.toNat := Nat.lt_asymm h
        have h2 : d ≠ c := fun e => absurd h (by simp [e])
        simp [strLtChars, h1, h2]
      · subst he
        simp [strLtChars, ih ds hr]

theorem sqlLe_refl (s : String) : sqlLe s s = true := by
  simp [sqlLe, sqlLt, strLtChars_irrefl]

theorem sqlLt_to_le (a b : String) (h : sqlLt a b = true) :
    sqlLe a b = true := by
  simp [sqlLe, sqlLt, strLtChars_asymm _ _ h]

theorem date_le_of_getLast (l : List Record) :
    l.Pairwise (fun a b => sqlLt a.date b.date = true) →
    ∀ a ∈ l, ∀ x, l.getLast? = some x → sqlLe a.date x.date = true := by
  induction l with
  | nil => intro _ a ha; cases ha
  | cons y ys ih =>
    intro hp a ha x hx
    cases ys with
    | nil =>
      rw [List.mem_singleton] at ha
      subst ha
      simp only [List.getLast?_singleton, Option.some.injEq] at hx
      subst hx
      exact sqlLe_refl _
    | cons z zs =>
      rw [List.getLast?_cons_cons] at hx
      rcases List.mem_cons.mp ha with rfl | ha2
      · exact sqlLt_to_le _ _
          (List.rel_of_pairwise_cons hp (mem_of_getLast?_eq hx))
      · exact ih hp.of_cons a ha2 x hx

theorem insertByDate_perm (r : Record) (l : List Record) :
    (insertByDate r l).Perm (r :: l) := by
  induction l with
  | nil => simp [insertByDate]
  | cons x xs ih =>
    simp only [insertByDate]
    split
    · exact List.Perm.refl _
    · exact (ih.cons x).trans (List.Perm.swap r x xs)

theorem sortByDate_perm (l : List Record) : (sortByDate l).Perm l := by
  induction l with
  | nil => exact List.Perm.refl _
  | cons x xs ih =>
    exact (insertByDate_perm x (sortByDate xs)).trans (ih.cons x)

/-- C7: over a metric table in ascending date order, the latest-weight
aggregation is unavailable (`none`, displayed as `"N/A"`) exactly when no row
has a strictly positive body weight, and otherwise returns the weight of a
row with positive weight that is at least as recent as every other
positive-weight row; body weights 0, 0, 62.3, 0 across ascending dates yield
62.3. -/
theorem curr_weight_latest_positive (rows : List Record)
    (hs : rows.Pairwise (fun a b => sqlLt a.date b.date = true)) :
    (curr_weight rows = none ↔ ∀ r ∈ rows, r.body_weight ≤ 0) ∧
    (∀ q : ℚ, curr_weight rows = some q →
      ∃ r ∈ rows, r.body_weight = q ∧ 0 < q ∧
        ∀ r2 ∈ rows, 0 < r2.body_weight → sqlLe r2.date r.date = true) ∧
    curr_weight c7rows = some (623 / 10) := by
  refine ⟨?_, fun q hq => ?_, ?_⟩
  · by_cases h0 : rows = []
    · subst h0; simp [curr_weight]
    · rw [curr_weight, if_neg h0, Option.map_eq_none', List.getLast?_eq_none_iff,
        List.filter_eq_nil_iff]
      constructor
      · intro h r hr
        have := h r hr
        simp only [decide_eq_true_eq, not_lt] at this
        exact this
      · intro h r hr
        simp [not_lt.mpr (h r hr)]
  · by_cases h0 : rows = []
    · subst h0; simp [curr_weight] at hq
    · rw [curr_weight, if_neg h0] at hq
      rcases Option.map_eq_some'.mp hq with ⟨r, hlast, hwq⟩
      rcases List.mem_filter.mp (mem_of_getLast?_eq hlast) with ⟨hrmem, hpos⟩
      have hposw : 0 < r.body_weight := of_decide_eq_true hpos
      refine ⟨r, hrmem, hwq, hwq ▸ hposw, fun r2 h2 hp2 => ?_⟩
      have hpf : (rows.filter (fun r => decide (0 < r.body_weight))).Pairwise
          (fun a b => sqlLt a.date b.date = true) :=
        List.Pairwise.sublist (List.filter_sublist rows) hs
      exact date_le_of_getLast _ hpf r2
        (List.mem_filter.mpr ⟨h2, decide_eq_true hp2⟩) r hlast
  · have h1 : curr_weight c7rows = some w623 := by rfl
    have h2 : w623 = 623 / 10 := by
      rw [w623, Rat.mk'_eq_divInt, Rat.divInt_eq_div]
      norm_num
    rw [h1, h2]

theorem curr_weight_latest_positive_witness :
    curr_weight c7rows = some (623 / 10) :=
  (curr_weight_latest_positive c7rows (by decide)).2.2

/-- C8: the 30-day average-sleep KPI equals the arithmetic mean of
`sleep_hours` over the metric rows with date at least the cutoff (the sort
performed by the query does not affect the mean), and an empty row set
yields 0 rather than an unavailable marker. -/
theorem avg_sleep_30day (db : DB) (cutoff : String) :
    (db.rows.filter (fun r => sqlLe cutoff r.date) = [] →
      kpi_avg_sleep db cutoff = 0) ∧
    (db.rows.filter (fun r => sqlLe cutoff r.date) ≠ [] →
      kpi_avg_sleep db cutoff =
        ((db.rows.filter (fun r => sqlLe cutoff r.date)).map
            (fun r => r.sleep_hours)).sum /
          ((db.rows.filter (fun r => sqlLe cutoff r.date)).length : ℚ)) := by
  have hperm := sortByDate_perm (db.rows.filter (fun r => sqlLe cutoff r.date))
  constructor
  · intro h
    have hq : query30 db cutoff = [] := by rw [query30, h]; rfl
    simp [kpi_avg_sleep, hq]
  · intro h
    have hq : query30 db cutoff ≠ [] := by
      intro h0
      have hnil : ([] : List Record).Perm
          (db.rows.filter (fun r => sqlLe cutoff r.date)) := h0 ▸ hperm
      exact h hnil.symm.eq_nil
    have e1 : ((query30 db cutoff).map (fun r => r.sleep_hours)).sum
        = ((db.rows.filter (fun r => sqlLe cutoff r.date)).map
            (fun r => r.sleep_hours)).sum :=
      (hperm.map (fun r => r.sleep_hours)).sum_eq
    have e2 : (query30 db cutoff).length
        = (db.rows.filter (fun r => sqlLe cutoff r.date)).length :=
      hperm.length_eq
    simp only [kpi_avg_sleep, if_neg hq, e1, e2]

/-- Sample table for the average-sleep witness: two rows inside the 30-day
window, stored in descending date order. -/
def c8db : DB :=
  ⟨[⟨1, "2024-01-06", 0, 8, 0, 0, 0, 0⟩, ⟨2, "2024-01-05", 0, 6, 0, 0, 0, 0⟩], 3⟩

theorem avg_sleep_30day_witness :
    kpi_avg_sleep emptyDB "2024-01-01" = 0 ∧
    kpi_avg_sleep c8db "2024-01-01"
      = ((c8db.rows.filter (fun r => sqlLe "2024-01-01" r.date)).map
          (fun r => r.sleep_hours)).sum /
        ((c8db.rows.filter (fun r => sqlLe "2024-01-01" r.date)).length : ℚ) :=
  ⟨(avg_sleep_30day emptyDB "2024-01-01").1 (by rfl),
   (avg_sleep_30day c8db "2024-01-01").2 (by decide)⟩

/-- C10: replacing the record of an existing date gives the new record a
fresh AUTOINCREMENT id, different from the replaced record's id, while the
records of every other date are exactly preserved, and the id invariant is
maintained. -/
theorem upsert_replaces_with_fresh_id (db : DB) (d : String)
    (s : ℤ) (sl : ℚ) (ds mnh mxh : ℤ) (w : ℚ)
    (hwf : wfDB db) (old : Record) (hold : old ∈ db.rows)
    (_hdate : old.date = d) :
    (∀ r ∈ (upsert db d s sl ds mnh mxh w).rows, r.date = d →
        r.id = db.nextId ∧ r.id ≠ old.id) ∧
    (∀ r ∈ db.rows, r.date ≠ d → r ∈ (upsert db d s sl ds mnh mxh w).rows) ∧
    (∀ r ∈ (upsert db d s sl ds mnh mxh w).rows, r.date ≠ d → r ∈ db.rows) ∧
    wfDB (upsert db d s sl ds mnh mxh w) := by
  refine ⟨fun r hr hrd => ?_, fun r hr hrd => ?_, fun r hr hrd => ?_,
    fun r hr => ?_⟩
  · rcases List.mem_append.mp hr with hl | hl
    · rcases List.mem_filter.mp hl with ⟨-, hne⟩
      exact absurd hrd (of_decide_eq_true hne)
    · rcases List.mem_singleton.mp hl with rfl
      refine ⟨rfl, fun he => ?_⟩
      have h1 := hwf old hold
      simp only at he
      omega
  · exact List.mem_append_left _ (List.mem_filter.mpr ⟨hr, decide_eq_true hrd⟩)
  · rcases List.mem_append.mp hr with hl | hl
    · exact (List.mem_filter.mp hl).1
    · rcases List.mem_singleton.mp hl with rfl
      exact absurd rfl hrd
  · rcases List.mem_append.mp hr with hl | hl
    · exact (hwf r (List.mem_filter.mp hl).1).trans (Nat.lt_succ_self _)
    · rcases List.mem_singleton.mp hl with rfl
      exact Nat.lt_succ_self _

/-- Sample one-row table for the fresh-id witness. -/
def c10db : DB := ⟨[⟨1, "2024-01-01", 5, 6, 7, 8, 9, 70⟩], 2⟩

/-- The row of `c10db` that gets replaced. -/
def c10old : Record := ⟨1, "2024-01-01", 5, 6, 7, 8, 9, 70⟩

/-- The record produced by the replacing upsert on `c10db`. -/
def c10new : Record := ⟨2, "2024-01-01", 1, 2, 3, 4, 5, 6⟩

theorem upsert_replaces_with_fresh_id_witness :
    c10new.id = c10db.nextId ∧ c10new.id ≠ c10old.id :=
  (upsert_replaces_with_fresh_id c10db "2024-01-01" 1 2 3 4 5 6
      (by intro r hr; simp [c10db] at hr; subst hr; decide)
      c10old (by simp [c10db, c10old]) rfl).1
    c10new (by decide) rfl

end HealthApp
